import Mathlib

/-!
Shallow embedding of the space-mining game core (the GameCanvas frame loop and
the StationInterface operations) over exact rational arithmetic.  JS numbers
are modelled by rationals; Math.floor and Math.ceil by the integer floor and
ceiling on rationals.  Values produced by Math.cos, Math.sin, Math.sqrt,
Math.atan2 and Math.random are not rational-definable, so each such call site
takes the sampled value as an explicit oracle argument; comparisons of the
form Math.sqrt e < r are embedded as e < r ^ 2 (equivalent for 0 <= r, and
every range constant in the game is nonnegative).  Rendering-only data
(colors, vertices, ids, sounds) is omitted; particle effects are modelled by
the number of particles spawned, which is all the verified properties
mention.
-/

namespace SpaceMining

/-- Mineral types, from the MineralType enum in types.ts (declaration order
Iron, Silicon, Gold, Kronos Crystal, which is also the Object.keys order of
every cargo record). -/
inductive MineralType where
  | iron
  | silicon
  | gold
  | kronos
deriving DecidableEq, Repr

/-- The Object.keys iteration order of a full cargo record. -/
def mineralTypes : List MineralType :=
  [MineralType.iron, MineralType.silicon, MineralType.gold, MineralType.kronos]

/-- A 2D point or vector (interface Point in types.ts). -/
structure Point where
  x : ℚ
  y : ℚ
deriving DecidableEq, Repr

/-- A cargo record: mapping mineral type to count.  The TS records always
carry all four keys (initialised to 0 in App.tsx), so a fixed structure with
one field per mineral is the exact image. -/
structure Cargo where
  iron : ℚ
  silicon : ℚ
  gold : ℚ
  kronos : ℚ
deriving DecidableEq, Repr

/-- Read one count (cargo[t]). -/
def Cargo.get (c : Cargo) : MineralType → ℚ
  | .iron => c.iron
  | .silicon => c.silicon
  | .gold => c.gold
  | .kronos => c.kronos

/-- Write one count (cargo[t] = v). -/
def Cargo.set (c : Cargo) : MineralType → ℚ → Cargo
  | .iron, v => { c with iron := v }
  | .silicon, v => { c with silicon := v }
  | .gold, v => { c with gold := v }
  | .kronos, v => { c with kronos := v }

/-- Object.values(cargo).reduce((a,b) => a+b, 0): the cargo total. -/
def Cargo.total (c : Cargo) : ℚ :=
  c.iron + c.silicon + c.gold + c.kronos

/-- The all-zero cargo record. -/
def emptyCargo : Cargo := ⟨0, 0, 0, 0⟩

/-- Upgradeable ship configuration (interface ShipConfig in types.ts). -/
structure ShipConfig where
  maxFuel : ℚ
  fuelConsumptionRate : ℚ
  thrustConsumptionRate : ℚ
  maxCargo : ℚ
  acceleration : ℚ
  maxSpeed : ℚ
  rotationSpeed : ℚ
  miningPower : ℚ
  miningRange : ℚ
deriving DecidableEq, Repr

/-- Full player/ship state (interface PlayerState in types.ts). -/
structure PlayerState where
  credits : ℚ
  currentFuel : ℚ
  cargo : Cargo
  shipConfig : ShipConfig
  position : Point
  velocity : Point
  rotation : ℚ
deriving DecidableEq, Repr

/-! Constants from constants.ts. -/

def STATION_RADIUS : ℚ := 150
def DOCKING_RANGE : ℚ := 200
def LOOT_COLLECTION_RANGE : ℚ := 60
def LOOT_DESPAWN_TIME : ℚ := 1800

def INITIAL_SHIP_CONFIG : ShipConfig :=
  { maxFuel := 1000
    fuelConsumptionRate := 1/20
    thrustConsumptionRate := 1/2
    maxCargo := 20
    acceleration := 3/20
    maxSpeed := 8
    rotationSpeed := 2/25
    miningPower := 3/2
    miningRange := 350 }

def ALIEN_HP : ℚ := 300
def ALIEN_SPEED : ℚ := 3
def ALIEN_DRAIN_RANGE : ℚ := 300
def ALIEN_DRAIN_INTERVAL : ℕ := 45

/-- MINERAL_VALUES from constants.ts. -/
def MINERAL_VALUES : MineralType → ℚ
  | .iron => 10
  | .silicon => 25
  | .gold => 100
  | .kronos => 500

/-! Station shop operations (StationInterface.tsx). -/

/-- The credit value accumulated by the sellAll loop:
totalValue += newCargo[type] * MINERAL_VALUES[type] over Object.keys order. -/
def cargoValue (c : Cargo) : ℚ :=
  (mineralTypes.map fun t => c.get t * MINERAL_VALUES t).sum

/-- sellAll (StationInterface.tsx lines 76-90): add the value of every cargo
unit to credits, zero every cargo count, and set currentFuel to maxFuel. -/
def sellAll (p : PlayerState) : PlayerState :=
  { p with
    credits := p.credits + cargoValue p.cargo
    cargo := emptyCargo
    currentFuel := p.shipConfig.maxFuel }

/-- refuel (StationInterface.tsx lines 92-111).  cost = Math.ceil(fuelNeeded
* 0.1); if credits >= cost, pay for a full tank, otherwise a part refuel of
Math.floor(credits / 0.1) fuel units with credits dropping to 0. -/
def refuel (p : PlayerState) : PlayerState :=
  let fuelNeeded := p.shipConfig.maxFuel - p.currentFuel
  let cost : ℚ := (⌈fuelNeeded * (1/10)⌉ : ℤ)
  if cost ≤ p.credits then
    { p with
      credits := p.credits - cost
      currentFuel := p.shipConfig.maxFuel }
  else
    let fuelAffordable : ℚ := (⌊p.credits / (1/10)⌋ : ℤ)
    { p with
      credits := 0
      currentFuel := p.currentFuel + fuelAffordable }

/-- The stat keys on which upgradeStat is invoked by the shop buttons. -/
inductive StatKey where
  | acceleration
  | maxCargo
  | miningPower
  | maxFuel
deriving DecidableEq, Repr

/-- shipConfig[statKey] += step. -/
def ShipConfig.addStat (c : ShipConfig) : StatKey → ℚ → ShipConfig
  | .acceleration, s => { c with acceleration := c.acceleration + s }
  | .maxCargo, s => { c with maxCargo := c.maxCargo + s }
  | .miningPower, s => { c with miningPower := c.miningPower + s }
  | .maxFuel, s => { c with maxFuel := c.maxFuel + s }

/-- upgradeStat (StationInterface.tsx lines 113-124): deduct cost and bump the
stat only when credits >= cost; otherwise do nothing. -/
def upgradeStat (p : PlayerState) (k : StatKey) (step cost : ℚ) : PlayerState :=
  if cost ≤ p.credits then
    { p with
      credits := p.credits - cost
      shipConfig := p.shipConfig.addStat k step }
  else p

/-! Game entities (types.ts interfaces, gameplay-relevant fields; vertices,
rotation, ids and colors are rendering-only and omitted). -/

/-- An asteroid (interface Asteroid): position, velocity (present but unused
for movement), bounding radius, mineral type, health, and the transient
isHeating flag set during the frame it is hit. -/
structure Asteroid where
  x : ℚ
  y : ℚ
  vx : ℚ
  vy : ℚ
  radius : ℚ
  type : MineralType
  health : ℚ
  maxHealth : ℚ
  isHeating : Bool
deriving DecidableEq, Repr

/-- The alien behavioural state machine: CHASING or DRAINING. -/
inductive AlienState where
  | chasing
  | draining
deriving DecidableEq, Repr

/-- The predator entity (interface Alien): position, velocity, hit points,
stolen cargo record, behavioural state, drain frame counter and the cosmetic
wobble phase. -/
structure Alien where
  x : ℚ
  y : ℚ
  vx : ℚ
  vy : ℚ
  hp : ℚ
  maxHp : ℚ
  stolenCargo : Cargo
  state : AlienState
  drainTimer : ℕ
  wobbleAngle : ℚ
deriving DecidableEq, Repr

/-- A drifting loot item (interface Loot): position, velocity, mineral type,
amount and remaining life in frames. -/
structure Loot where
  x : ℚ
  y : ℚ
  vx : ℚ
  vy : ℚ
  type : MineralType
  amount : ℚ
  life : ℚ
deriving DecidableEq, Repr

/-! Alien drain (GameCanvas lines 360-389). -/

/-- Object.keys(ship.cargo).filter(t => ship.cargo[t] > 0): the mineral types
currently present in ship cargo, in key order. -/
def availableTypes (c : Cargo) : List MineralType :=
  mineralTypes.filter fun t => 0 < c.get t

/-- Result of one evaluation of the vampiric-drain block: updated ship
cargo, updated stolenCargo, updated drainTimer, and which type (if any) was
stolen this frame (the latter drives the floating-text particle and the zap
sound cue). -/
structure DrainOut where
  cargo : Cargo
  stolen : Cargo
  timer : ℕ
  stoleType : Option MineralType
deriving DecidableEq, Repr

/-- The vampiric-drain block (lines 360-389).  isDraining embeds
alien.state === DRAINING and inRange embeds dist < ALIEN_CONFIG.DRAIN_RANGE
(dist is the ship-alien distance measured at the top of the alien update).
pickIdx is the oracle for Math.floor(Math.random() * availableTypes.length);
a genuine draw always satisfies pickIdx < availableTypes.length, and the
claim theorems carry that bound. -/
def drainStep (cargo stolen : Cargo) (timer : ℕ) (isDraining inRange : Bool)
    (pickIdx : ℕ) : DrainOut :=
  if isDraining && inRange then
    let t := timer + 1
    if ALIEN_DRAIN_INTERVAL ≤ t then
      let avail := availableTypes cargo
      if 0 < avail.length then
        let ty := avail.getD pickIdx MineralType.iron
        { cargo := cargo.set ty (cargo.get ty - 1)
          stolen := stolen.set ty (stolen.get ty + 1)
          timer := 0
          stoleType := some ty }
      else
        { cargo := cargo, stolen := stolen, timer := 0, stoleType := none }
    else
      { cargo := cargo, stolen := stolen, timer := t, stoleType := none }
  else
    { cargo := cargo, stolen := stolen, timer := timer, stoleType := none }

/-- One alien update (lines 327-389): wobble, chase/brake state switch,
speed cap, position integration, then the drain block.  aCos and aSin are
the oracles for Math.cos/Math.sin of the Math.atan2 chase angle, and aSpeed
for Math.sqrt(vx^2 + vy^2) of the post-acceleration velocity.  Returns the
updated alien together with the possibly-drained ship cargo and the drain
outcome. -/
def alienUpdate (sx sy : ℚ) (cargo : Cargo) (al : Alien)
    (aCos aSin aSpeed : ℚ) (pickIdx : ℕ) : Alien × Cargo × Option MineralType :=
  let dx := sx - al.x
  let dy := sy - al.y
  let dist2 := dx * dx + dy * dy
  let al1 := { al with wobbleAngle := al.wobbleAngle + 1/10 }
  let al2 :=
    if (ALIEN_DRAIN_RANGE * (7/10)) ^ 2 < dist2 then
      { al1 with
        vx := al1.vx + aCos * (1/10)
        vy := al1.vy + aSin * (1/10)
        state := AlienState.chasing }
    else
      { al1 with
        vx := al1.vx * (19/20)
        vy := al1.vy * (19/20)
        state := AlienState.draining }
  let al3 :=
    if ALIEN_SPEED < aSpeed then
      { al2 with
        vx := al2.vx / aSpeed * ALIEN_SPEED
        vy := al2.vy / aSpeed * ALIEN_SPEED }
    else al2
  let al4 := { al3 with x := al3.x + al3.vx, y := al3.y + al3.vy }
  let d := drainStep cargo al4.stolenCargo al4.drainTimer
    (decide (al4.state = AlienState.draining))
    (decide (dist2 < ALIEN_DRAIN_RANGE ^ 2)) pickIdx
  ({ al4 with stolenCargo := d.stolen, drainTimer := d.timer }, d.cargo, d.stoleType)

/-! Mining and combat resolution (GameCanvas lines 396-569). -/

/-- The per-frame inputs and oracle draws the combat block reads: ship
config and fuel, ship position, cos/sin of the ship rotation (for the laser
nose offset), the world-space mouse position, the Math.random draws for the
spawned loot velocity, and the Math.random() > 0.5 spark draw. -/
structure CombatEnv where
  cfg : ShipConfig
  mouseDown : Bool
  fuel : ℚ
  shipX : ℚ
  shipY : ℚ
  cosR : ℚ
  sinR : ℚ
  wmx : ℚ
  wmy : ℚ
  lootVx : ℚ
  lootVy : ℚ
  spark : Bool
deriving DecidableEq, Repr

/-- Laser origin x: ship.position.x + Math.cos(rotation) * 30. -/
def laserX (e : CombatEnv) : ℚ := e.shipX + e.cosR * 30

/-- Laser origin y: ship.position.y + Math.sin(rotation) * 30. -/
def laserY (e : CombatEnv) : ℚ := e.shipY + e.sinR * 30

/-- The aim-assist test of lines 417-421: world cursor within 50 units of
the alien centre AND laser-origin-to-alien distance strictly within
miningRange (both Math.sqrt comparisons embedded squared). -/
def alienAim (e : CombatEnv) (al : Alien) : Bool :=
  decide ((e.wmx - al.x) ^ 2 + (e.wmy - al.y) ^ 2 < 50 ^ 2) &&
  decide ((al.x - laserX e) ^ 2 + (al.y - laserY e) ^ 2 < e.cfg.miningRange ^ 2)

/-- The asteroid hit test of lines 489-494: cursor inside the bounding
circle (dx*dx + dy*dy < radius^2, as written) AND ship-to-asteroid distance
within miningRange (Math.sqrt(..) <= miningRange, embedded squared). -/
def astHit (e : CombatEnv) (a : Asteroid) : Bool :=
  decide ((e.wmx - a.x) ^ 2 + (e.wmy - a.y) ^ 2 < a.radius ^ 2) &&
  decide ((a.x - e.shipX) ^ 2 + (a.y - e.shipY) ^ 2 ≤ e.cfg.miningRange ^ 2)

/-- The for-loop of lines 488-499: walk the asteroid collection in order and
return the first hit together with its index (break after the first). -/
def findMiningTarget (e : CombatEnv) : List Asteroid → Option (ℕ × Asteroid)
  | [] => none
  | a :: rest =>
    if astHit e a then some (0, a)
    else (findMiningTarget e rest).map fun p => (p.1 + 1, p.2)

/-- Alien destruction loot drop (lines 450-465): one loot item per stolen
mineral type with a positive amount, at the alien position, with
life = LOOT_DESPAWN_TIME.  The random scatter velocities take the oracle
draws of the environment. -/
def alienDropLoot (e : CombatEnv) (al : Alien) : List Loot :=
  (mineralTypes.filter fun t => 0 < al.stolenCargo.get t).map fun t =>
    { x := al.x, y := al.y, vx := e.lootVx, vy := e.lootVy
      type := t, amount := al.stolenCargo.get t, life := LOOT_DESPAWN_TIME }

/-- Output of the combat block: remaining fuel, the alien slot, the asteroid
collection, loot pushed into the loot collection, the number of particles
pushed, and which branch fired. -/
structure CombatResult where
  fuel : ℚ
  alien : Option Alien
  asteroids : List Asteroid
  loot : List Loot
  particles : ℕ
  attackingAlien : Bool
  targetIdx : Option ℕ
deriving DecidableEq, Repr

/-- The asteroid half of the combat block (lines 487-565): find the first
asteroid under the cursor within range; on a hit set isHeating, deduct
miningPower from health and half the thrust rate from fuel, maybe spawn a
spark; on health <= 0 spawn one loot item of amount
Math.floor(radius / 5), spawn 8 chunk + 15 dust particles, and remove the
asteroid from the collection. -/
def asteroidPhase (e : CombatEnv) (alien : Option Alien)
    (asteroids : List Asteroid) : CombatResult :=
  match findMiningTarget e asteroids with
  | none =>
    { fuel := e.fuel, alien := alien, asteroids := asteroids, loot := []
      particles := 0, attackingAlien := false, targetIdx := none }
  | some (i, ast) =>
    let health := ast.health - e.cfg.miningPower
    let fuel := e.fuel - e.cfg.thrustConsumptionRate * (1/2)
    let sparkN := if e.spark then 1 else 0
    if health ≤ 0 then
      { fuel := fuel, alien := alien
        asteroids := asteroids.eraseIdx i
        loot := [{ x := ast.x, y := ast.y, vx := e.lootVx, vy := e.lootVy
                   type := ast.type, amount := (⌊ast.radius / 5⌋ : ℤ)
                   life := LOOT_DESPAWN_TIME }]
        particles := sparkN + 8 + 15
        attackingAlien := false, targetIdx := some i }
    else
      { fuel := fuel, alien := alien
        asteroids := asteroids.set i { ast with health := health, isHeating := true }
        loot := [], particles := sparkN
        attackingAlien := false, targetIdx := some i }

/-- The full combat block (lines 396-569).  Active only while the mouse
button is down and fuel > 0.  The alien, when present and passing the
aim-assist test, is targeted first and the asteroid scan is skipped;
otherwise the asteroid phase runs.  An alien hit deducts miningPower from
hp and half the thrust rate from fuel; at hp <= 0 the stolen cargo drops as
loot, 30 explosion particles spawn and the alien slot empties. -/
def combatStep (e : CombatEnv) (alien : Option Alien)
    (asteroids : List Asteroid) : CombatResult :=
  if e.mouseDown && decide (0 < e.fuel) then
    match alien with
    | some al =>
      if alienAim e al then
        let hp := al.hp - e.cfg.miningPower
        let fuel := e.fuel - e.cfg.thrustConsumptionRate * (1/2)
        let sparkN := if e.spark then 1 else 0
        if hp ≤ 0 then
          { fuel := fuel, alien := none, asteroids := asteroids
            loot := alienDropLoot e al
            particles := sparkN + 30
            attackingAlien := true, targetIdx := none }
        else
          { fuel := fuel, alien := some { al with hp := hp }
            asteroids := asteroids, loot := [], particles := sparkN
            attackingAlien := true, targetIdx := none }
      else asteroidPhase e (some al) asteroids
    | none => asteroidPhase e none asteroids
  else
    { fuel := e.fuel, alien := alien, asteroids := asteroids, loot := []
      particles := 0, attackingAlien := false, targetIdx := none }

/-! Loot lifecycle (GameCanvas lines 571-622). -/

/-- The per-item physics of the loot forEach: position += velocity, then
velocity *= 0.95, then life--. -/
def lootMove (l : Loot) : Loot :=
  { l with
    x := l.x + l.vx
    y := l.y + l.vy
    vx := l.vx * (19/20)
    vy := l.vy * (19/20)
    life := l.life - 1 }

/-- One iteration of the loot forEach (lines 572-621): move the item, then,
when within LOOT_COLLECTION_RANGE of the ship, either absorb the whole
amount into cargo and zero the life (when total + amount <= maxCargo) or
leave cargo and item alone (the CARGO FULL warning particle draw changes no
gameplay state). -/
def lootUpdate1 (maxC sx sy : ℚ) (c : Cargo) (l : Loot) : Cargo × Loot :=
  let m := lootMove l
  if (sx - m.x) ^ 2 + (sy - m.y) ^ 2 < LOOT_COLLECTION_RANGE ^ 2 then
    if c.total + m.amount ≤ maxC then
      (c.set m.type (c.get m.type + m.amount), { m with life := 0 })
    else (c, m)
  else (c, m)

/-- The whole forEach: items processed in order, each seeing the cargo left
by its predecessors. -/
def lootPass (maxC sx sy : ℚ) (c : Cargo) : List Loot → Cargo × List Loot
  | [] => (c, [])
  | l :: ls =>
    let p := lootUpdate1 maxC sx sy c l
    let q := lootPass maxC sx sy p.1 ls
    (q.1, p.2 :: q.2)

/-- Lines 572-622: the forEach followed by
lootRef.current = lootRef.current.filter(l => l.life > 0). -/
def lootStage (maxC sx sy : ℚ) (c : Cargo) (ls : List Loot) : Cargo × List Loot :=
  let p := lootPass maxC sx sy c ls
  (p.1, p.2.filter fun l => decide (0 < l.life))

/-! Ship physics (GameCanvas lines 236-298). -/

/-- Rotation keys (lines 237-238): A/Left subtracts, D/Right adds
rotationSpeed. -/
def rotAfterKeys (cfg : ShipConfig) (rot : ℚ) (kl kr : Bool) : ℚ :=
  let r1 := if kl then rot - cfg.rotationSpeed else rot
  if kr then r1 + cfg.rotationSpeed else r1

/-- Thrust fires when W/Up is held and fuel > 0 (line 242). -/
def thrustFires (kt : Bool) (fuel : ℚ) : Bool :=
  kt && decide (0 < fuel)

/-- Velocity after the thrust acceleration (lines 243-244); cosR/sinR are
the Math.cos/Math.sin oracles at the post-rotation heading. -/
def velAfterThrust (cfg : ShipConfig) (v : Point) (fuel : ℚ) (kt : Bool)
    (cosR sinR : ℚ) : Point :=
  if thrustFires kt fuel then
    ⟨v.x + cosR * cfg.acceleration, v.y + sinR * cfg.acceleration⟩
  else v

/-- Fuel after the thrust deduction (line 245). -/
def fuelAfterThrust (cfg : ShipConfig) (fuel : ℚ) (kt : Bool) : ℚ :=
  if thrustFires kt fuel then fuel - cfg.thrustConsumptionRate else fuel

/-- Isotropic drag (lines 272-273): velocity *= 0.99. -/
def velAfterDrag (v : Point) : Point :=
  ⟨v.x * (99/100), v.y * (99/100)⟩

/-- Speed cap (lines 276-280); speed is the Math.sqrt oracle for the
post-drag velocity magnitude. -/
def velAfterCap (cfg : ShipConfig) (v : Point) (speed : ℚ) : Point :=
  if cfg.maxSpeed < speed then
    ⟨v.x / speed * cfg.maxSpeed, v.y / speed * cfg.maxSpeed⟩
  else v

/-- Result of the physics prologue of the frame. -/
structure PhysicsOut where
  rotation : ℚ
  velocity : Point
  position : Point
  fuel : ℚ
  isGameOver : Bool
deriving DecidableEq, Repr

/-- Lines 236-298 in order: rotation keys, thrust (velocity and fuel), drag,
speed cap, position integration, then either the idle fuel drain (fuel > 0)
or the game-over check on residual velocity (|vx| < 0.1 and |vy| < 0.1). -/
def physicsStage (cfg : ShipConfig) (rot fuel : ℚ) (vel pos : Point)
    (kl kr kt : Bool) (cosR sinR speed : ℚ) : PhysicsOut :=
  let rot2 := rotAfterKeys cfg rot kl kr
  let vel1 := velAfterThrust cfg vel fuel kt cosR sinR
  let fuel1 := fuelAfterThrust cfg fuel kt
  let vel2 := velAfterDrag vel1
  let vel3 := velAfterCap cfg vel2 speed
  let pos1 : Point := ⟨pos.x + vel3.x, pos.y + vel3.y⟩
  if 0 < fuel1 then
    { rotation := rot2, velocity := vel3, position := pos1
      fuel := fuel1 - cfg.fuelConsumptionRate, isGameOver := false }
  else
    { rotation := rot2, velocity := vel3, position := pos1
      fuel := fuel1
      isGameOver := decide (|vel3.x| < 1/10 ∧ |vel3.y| < 1/10) }

/-! The composed frame (the loop body of GameCanvas lines 223-1071, minus
rendering, which mutates no gameplay state the claims mention). -/

/-- The per-mission mutable refs read and written by one frame. -/
structure GameFrameState where
  ship : PlayerState
  asteroids : List Asteroid
  alien : Option Alien
  loot : List Loot
deriving DecidableEq, Repr

/-- The sampled input state for one frame. -/
structure FrameInput where
  keyLeft : Bool
  keyRight : Bool
  keyThrust : Bool
  mouseDown : Bool
  mouseX : ℚ
  mouseY : ℚ
  width : ℚ
  height : ℚ
deriving DecidableEq, Repr

/-- The oracle values for every transcendental or random draw one frame can
make. -/
structure FrameOracles where
  cosR : ℚ
  sinR : ℚ
  speed : ℚ
  spawnAlien : Bool
  spawnCos : ℚ
  spawnSin : ℚ
  alienCos : ℚ
  alienSin : ℚ
  alienSpeed : ℚ
  pickIdx : ℕ
  spark : Bool
  lootVx : ℚ
  lootVy : ℚ
deriving DecidableEq, Repr

/-- How a frame ends: the game-over callback fired (loop stops), the dock
callback fired with the live ship state (loop stops), or the loop continues
into the next frame with the updated refs. -/
inductive FrameExit where
  | gameOver : FrameExit
  | docked : PlayerState → FrameExit
  | next : GameFrameState → FrameExit
deriving DecidableEq, Repr

/-- The physics prologue of a frame. -/
def framePhysics (st : GameFrameState) (inp : FrameInput) (o : FrameOracles) :
    PhysicsOut :=
  physicsStage st.ship.shipConfig st.ship.rotation st.ship.currentFuel
    st.ship.velocity st.ship.position inp.keyLeft inp.keyRight inp.keyThrust
    o.cosR o.sinR o.speed

/-- Alien spawn (lines 306-324): when the slot is empty and the spawn draw
succeeds, a fresh alien appears at a fixed radial distance outside the
viewport around the ship. -/
def frameAlienSpawn (st : GameFrameState) (inp : FrameInput)
    (o : FrameOracles) : Option Alien :=
  match st.alien with
  | some a => some a
  | none =>
    if o.spawnAlien then
      let dist := max inp.width inp.height * (6/5)
      let p := (framePhysics st inp o).position
      some { x := p.x + o.spawnCos * dist, y := p.y + o.spawnSin * dist
             vx := 0, vy := 0, hp := ALIEN_HP, maxHp := ALIEN_HP
             stolenCargo := emptyCargo, state := AlienState.chasing
             drainTimer := 0, wobbleAngle := 0 }
    else none

/-- Alien movement and drain for the frame: the updated alien slot and the
cargo after any theft. -/
def frameAlienStep (st : GameFrameState) (inp : FrameInput)
    (o : FrameOracles) : Option Alien × Cargo :=
  match frameAlienSpawn st inp o with
  | none => (none, st.ship.cargo)
  | some al =>
    let p := (framePhysics st inp o).position
    let r := alienUpdate p.x p.y st.ship.cargo al o.alienCos o.alienSin
      o.alienSpeed o.pickIdx
    (some r.1, r.2.1)

/-- The combat environment a frame builds: world mouse = screen mouse plus
camera, camera = ship position minus half the viewport (lines 300-302 and
399-400). -/
def frameCombatEnv (st : GameFrameState) (inp : FrameInput)
    (o : FrameOracles) : CombatEnv :=
  let ph := framePhysics st inp o
  { cfg := st.ship.shipConfig
    mouseDown := inp.mouseDown
    fuel := ph.fuel
    shipX := ph.position.x
    shipY := ph.position.y
    cosR := o.cosR
    sinR := o.sinR
    wmx := inp.mouseX + (ph.position.x - inp.width / 2)
    wmy := inp.mouseY + (ph.position.y - inp.height / 2)
    lootVx := o.lootVx
    lootVy := o.lootVy
    spark := o.spark }

/-- The combat block of the frame. -/
def frameCombat (st : GameFrameState) (inp : FrameInput) (o : FrameOracles) :
    CombatResult :=
  combatStep (frameCombatEnv st inp o) (frameAlienStep st inp o).1 st.asteroids

/-- The loot block of the frame: the forEach runs over the existing items
followed by the loot the combat block just pushed. -/
def frameLoot (st : GameFrameState) (inp : FrameInput) (o : FrameOracles) :
    Cargo × List Loot :=
  let ph := framePhysics st inp o
  lootStage st.ship.shipConfig.maxCargo ph.position.x ph.position.y
    (frameAlienStep st inp o).2 (st.loot ++ (frameCombat st inp o).loot)

/-- The live ship state at the end of the frame logic (the object onDock
receives, and the ship ref carried into the next frame). -/
def frameShip (st : GameFrameState) (inp : FrameInput) (o : FrameOracles) :
    PlayerState :=
  let ph := framePhysics st inp o
  { credits := st.ship.credits
    currentFuel := (frameCombat st inp o).fuel
    cargo := (frameLoot st inp o).1
    shipConfig := st.ship.shipConfig
    position := ph.position
    velocity := ph.velocity
    rotation := ph.rotation }

/-- The refs carried into the next frame when the loop continues. -/
def frameNext (st : GameFrameState) (inp : FrameInput) (o : FrameOracles) :
    GameFrameState :=
  { ship := frameShip st inp o
    asteroids := (frameCombat st inp o).asteroids
    alien := (frameCombat st inp o).alien
    loot := (frameLoot st inp o).2 }

/-- One frame of the simulation loop: physics (with the early game-over
return of lines 290-297), then alien, combat and loot updates, then the
docking gate of lines 624-631 (distance to the station origin within
DOCKING_RANGE, the stale pre-cap speed under 2, and more strictly under
0.5). -/
def frame (st : GameFrameState) (inp : FrameInput) (o : FrameOracles) :
    FrameExit :=
  let ph := framePhysics st inp o
  if ph.isGameOver then FrameExit.gameOver
  else if ph.position.x ^ 2 + ph.position.y ^ 2 < DOCKING_RANGE ^ 2 ∧ o.speed < 2 then
    if o.speed < 1/2 then FrameExit.docked (frameShip st inp o)
    else FrameExit.next (frameNext st inp o)
  else FrameExit.next (frameNext st inp o)

/-- Projection: the ship fuel carried out of a frame, when the mission is
still alive. -/
def FrameExit.fuelOf : FrameExit → Option ℚ
  | .gameOver => none
  | .docked p => some p.currentFuel
  | .next s => some s.ship.currentFuel

/-- Projection: the cargo record carried out of a frame. -/
def FrameExit.cargoOf : FrameExit → Option Cargo
  | .gameOver => none
  | .docked p => some p.cargo
  | .next s => some s.ship.cargo

/-! Concrete scenario states used by witnesses and counterexamples. -/

/-- Combat environment of the continuous-mining scenario: default config,
ship at the origin heading along +x, cursor on an asteroid at (100, 0);
cursor offset 0 < radius and ship distance 100 <= miningRange = 350, so the
hit test passes every frame. -/
def mineEnv (sp : Bool) (fuel : ℚ) : CombatEnv :=
  { cfg := INITIAL_SHIP_CONFIG, mouseDown := true, fuel := fuel
    shipX := 0, shipY := 0, cosR := 1, sinR := 0, wmx := 100, wmy := 0
    lootVx := 0, lootVy := 0, spark := sp }

/-- The scenario asteroid: health 100, radius 40, gold. -/
def mineAst : Asteroid :=
  { x := 100, y := 0, vx := 0, vy := 0, radius := 40, type := MineralType.gold
    health := 100, maxHealth := 100, isHeating := false }

/-- One continuously-targeted mining frame acting on (asteroid collection,
fuel); the spark draw is fixed low since it never changes asteroids, loot or
fuel. -/
def mineTick (s : List Asteroid × ℚ) : List Asteroid × ℚ :=
  let r := combatStep (mineEnv false s.2) none s.1
  (r.asteroids, r.fuel)

/-- The scenario trajectory: n continuously-targeted frames from a fresh
asteroid and a full 1000-unit tank. -/
def mineRun : ℕ → List Asteroid × ℚ
  | 0 => ([mineAst], 1000)
  | n + 1 => mineTick (mineRun n)

/-- A frame state with 0.3 fuel units left, thrusting hard away from the
station: the thrust tick of that frame burns 0.5 units. -/
def lowFuelSt : GameFrameState :=
  { ship := { credits := 0, currentFuel := 3/10, cargo := emptyCargo
              shipConfig := INITIAL_SHIP_CONFIG, position := ⟨10000, 0⟩
              velocity := ⟨5, 0⟩, rotation := 0 }
    asteroids := [], alien := none, loot := [] }

/-- Input for the low-fuel frame: thrust held, nothing else. -/
def lowFuelInp : FrameInput :=
  { keyLeft := false, keyRight := false, keyThrust := true, mouseDown := false
    mouseX := 0, mouseY := 0, width := 800, height := 600 }

/-- Oracles for the low-fuel frame: heading (1, 0); post-drag velocity is
(10197/2000, 0), whose magnitude is exactly 10197/2000. -/
def lowFuelOr : FrameOracles :=
  { cosR := 1, sinR := 0, speed := 10197/2000, spawnAlien := false
    spawnCos := 0, spawnSin := 0, alienCos := 0, alienSin := 0
    alienSpeed := 0, pickIdx := 0, spark := false, lootVx := 0, lootVy := 0 }

/-- A slow ship drifting over the station: velocity (10/33, 0) becomes
(3/10, 0) after drag, speed exactly 3/10 < 0.5, position ends inside the
docking radius. -/
def dockSt : GameFrameState :=
  { ship := { credits := 0, currentFuel := 1000, cargo := emptyCargo
              shipConfig := INITIAL_SHIP_CONFIG, position := ⟨0, 0⟩
              velocity := ⟨10/33, 0⟩, rotation := 0 }
    asteroids := [], alien := none, loot := [] }

/-- Input for the docking frame: hands off. -/
def dockInp : FrameInput :=
  { keyLeft := false, keyRight := false, keyThrust := false, mouseDown := false
    mouseX := 0, mouseY := 0, width := 800, height := 600 }

/-- Oracles for the docking frame; the speed oracle 3/10 is the exact
magnitude of the post-drag velocity (3/10, 0). -/
def dockOr : FrameOracles :=
  { cosR := 1, sinR := 0, speed := 3/10, spawnAlien := false
    spawnCos := 0, spawnSin := 0, alienCos := 0, alienSin := 0
    alienSpeed := 0, pickIdx := 0, spark := false, lootVx := 0, lootVy := 0 }

/-- A fuel-dead ship hovering over the station with residual velocity
(1/20, 0): after drag the velocity is (99/2000, 0), both components below
0.1, and the ship ends the frame well inside the docking radius. -/
def deadDockSt : GameFrameState :=
  { ship := { credits := 0, currentFuel := 0, cargo := emptyCargo
              shipConfig := INITIAL_SHIP_CONFIG, position := ⟨0, 0⟩
              velocity := ⟨1/20, 0⟩, rotation := 0 }
    asteroids := [], alien := none, loot := [] }

/-- Oracles for the fuel-dead docking-radius frame; the speed oracle
99/2000 is the exact magnitude of the post-drag velocity (99/2000, 0). -/
def deadDockOr : FrameOracles :=
  { cosR := 1, sinR := 0, speed := 99/2000, spawnAlien := false
    spawnCos := 0, spawnSin := 0, alienCos := 0, alienSin := 0
    alienSpeed := 0, pickIdx := 0, spark := false, lootVx := 0, lootVy := 0 }

/-- A ship on an empty tank at rest: the game-over branch fires. -/
def emptySt : GameFrameState :=
  { ship := { credits := 0, currentFuel := 0, cargo := emptyCargo
              shipConfig := INITIAL_SHIP_CONFIG, position := ⟨500, 500⟩
              velocity := ⟨0, 0⟩, rotation := 0 }
    asteroids := [], alien := none, loot := [] }

/-- Input for the empty-tank frame. -/
def emptyInp : FrameInput :=
  { keyLeft := false, keyRight := false, keyThrust := false, mouseDown := false
    mouseX := 0, mouseY := 0, width := 800, height := 600 }

/-- Oracles for the empty-tank frame (velocity is zero, so speed is 0). -/
def emptyOr : FrameOracles :=
  { cosR := 1, sinR := 0, speed := 0, spawnAlien := false
    spawnCos := 0, spawnSin := 0, alienCos := 0, alienSin := 0
    alienSpeed := 0, pickIdx := 0, spark := false, lootVx := 0, lootVy := 0 }

/-- The refuel scenario player: credits 50, an empty 1000-unit tank. -/
def refuelP : PlayerState :=
  { credits := 50, currentFuel := 0, cargo := emptyCargo
    shipConfig := INITIAL_SHIP_CONFIG, position := ⟨0, 0⟩
    velocity := ⟨0, 0⟩, rotation := 0 }

/-- A docked player with some cargo and credits, for the station-operation
witnesses. -/
def stationP : PlayerState :=
  { credits := 300, currentFuel := 400, cargo := ⟨2, 1, 0, 0⟩
    shipConfig := INITIAL_SHIP_CONFIG, position := ⟨0, 0⟩
    velocity := ⟨0, 0⟩, rotation := 0 }

/-- A cargo record holding 3 iron and 2 gold, for the drain witnesses. -/
def drainCargo : Cargo := ⟨3, 0, 2, 0⟩

/-! Helper lemmas. -/

theorem Cargo.get_set_same (c : Cargo) (t : MineralType) (v : ℚ) :
    (c.set t v).get t = v := by
  cases t <;> rfl

theorem Cargo.get_set_ne (c : Cargo) (t u : MineralType) (v : ℚ)
    (h : u ≠ t) : (c.set t v).get u = c.get u := by
  cases t <;> cases u <;> first | rfl | exact absurd rfl h

theorem Cargo.total_set (c : Cargo) (t : MineralType) (v : ℚ) :
    (c.set t v).total = c.total - c.get t + v := by
  cases t <;> simp [Cargo.set, Cargo.get, Cargo.total] <;> ring

theorem Cargo.total_eq_sum_get (c : Cargo) :
    c.total = c.get .iron + c.get .silicon + c.get .gold + c.get .kronos := rfl

/-! Claims C8, C9, C10: the station operations. -/

/-- Claim C8: refuel charges ceil(0.1 * (maxFuel - currentFuel)) credits for
a full tank when credits suffice; otherwise it grants floor(credits / 0.1)
fuel units and zeroes the credits; in particular with credits = 50 and 1000
fuel units missing, the full cost 100 exceeds 50, so the ship gains exactly
500 fuel units and credits drop to 0. -/
theorem refuel_pricing (p : PlayerState) :
    (((⌈(p.shipConfig.maxFuel - p.currentFuel) * (1/10)⌉ : ℤ) : ℚ) ≤ p.credits →
      (refuel p).currentFuel = p.shipConfig.maxFuel ∧
      (refuel p).credits =
        p.credits - ((⌈(p.shipConfig.maxFuel - p.currentFuel) * (1/10)⌉ : ℤ) : ℚ)) ∧
    (¬ ((⌈(p.shipConfig.maxFuel - p.currentFuel) * (1/10)⌉ : ℤ) : ℚ) ≤ p.credits →
      (refuel p).currentFuel = p.currentFuel + ((⌊p.credits / (1/10)⌋ : ℤ) : ℚ) ∧
      (refuel p).credits = 0) ∧
    (p.credits = 50 → p.shipConfig.maxFuel - p.currentFuel = 1000 →
      (refuel p).currentFuel = p.currentFuel + 500 ∧ (refuel p).credits = 0) := by
  refine ⟨fun h => ?_, fun h => ?_, fun h50 hmiss => ?_⟩
  · simp only [refuel]
    split
    · exact ⟨rfl, rfl⟩
    · next hgt => exact absurd h hgt
  · simp only [refuel]
    split
    · next hle => exact absurd hle h
    · exact ⟨rfl, rfl⟩
  · have hne : ¬ ((⌈(p.shipConfig.maxFuel - p.currentFuel) * (1/10)⌉ : ℤ) : ℚ) ≤ p.credits := by
      rw [hmiss, h50]; norm_num
    have hfloor : ((⌊p.credits / (1/10)⌋ : ℤ) : ℚ) = 500 := by
      rw [h50]; norm_num
    simp only [refuel]
    split
    · next hle => exact absurd hle hne
    · constructor
      · show p.currentFuel + ((⌊p.credits / (1/10)⌋ : ℤ) : ℚ) = p.currentFuel + 500
        rw [hfloor]
      · rfl

/-- Witness for C8 at the spec scenario: credits 50, fuelMissing 1000. -/
theorem refuel_pricing_witness :
    (refuel refuelP).currentFuel = refuelP.currentFuel + 500 ∧
    (refuel refuelP).credits = 0 :=
  (refuel_pricing refuelP).2.2 (by norm_num [refuelP]) (by norm_num [refuelP, INITIAL_SHIP_CONFIG])

/-- Claim C9: sellAll credits the full cargo value, zeroes every cargo
count, and as a side effect sets currentFuel to maxFuel without charging
any credits for the fuel. -/
theorem sellAll_free_refuel (p : PlayerState) :
    (sellAll p).currentFuel = p.shipConfig.maxFuel ∧
    (sellAll p).credits = p.credits + cargoValue p.cargo ∧
    (sellAll p).cargo = emptyCargo ∧
    (sellAll p).shipConfig = p.shipConfig :=
  ⟨rfl, rfl, rfl, rfl⟩

/-- Claim C10: no station operation drives credits negative: sellAll only
adds value, refuel either deducts an affordable cost or zeroes credits, and
an upgrade deducts its cost only when credits >= cost and is a no-op
otherwise. -/
theorem station_credits_nonneg (p : PlayerState) (k : StatKey) (step cost : ℚ)
    (h : 0 ≤ p.credits) (hc : ∀ t, 0 ≤ p.cargo.get t) :
    0 ≤ (sellAll p).credits ∧
    0 ≤ (refuel p).credits ∧
    (¬ ((⌈(p.shipConfig.maxFuel - p.currentFuel) * (1/10)⌉ : ℤ) : ℚ) ≤ p.credits →
      (refuel p).credits = 0) ∧
    0 ≤ (upgradeStat p k step cost).credits ∧
    (cost ≤ p.credits → (upgradeStat p k step cost).credits = p.credits - cost) ∧
    (¬ cost ≤ p.credits → upgradeStat p k step cost = p) := by
  have hval : 0 ≤ cargoValue p.cargo := by
    have := hc .iron
    have := hc .silicon
    have := hc .gold
    have := hc .kronos
    simp only [cargoValue, mineralTypes, List.map, List.sum_cons, List.sum_nil,
      MINERAL_VALUES]
    positivity
  refine ⟨?_, ?_, ?_, ?_, ?_, ?_⟩
  · simpa [sellAll] using add_nonneg h hval
  · simp only [refuel]
    split
    · next hle => simp only; linarith
    · simp only; exact le_refl 0
  · intro hlt
    simp only [refuel, if_neg hlt]
  · simp only [upgradeStat]
    split
    · next hle => simp only; linarith
    · exact h
  · intro hle
    simp only [upgradeStat, if_pos hle]
  · intro hlt
    simp only [upgradeStat, if_neg hlt]

/-- Witness for C10 at a concrete docked player. -/
theorem station_credits_nonneg_witness :
    0 ≤ (sellAll stationP).credits ∧ 0 ≤ (refuel stationP).credits ∧
    0 ≤ (upgradeStat stationP StatKey.maxCargo 10 360).credits :=
  let h := station_credits_nonneg stationP StatKey.maxCargo 10 360
    (by norm_num [stationP])
    (by intro t; cases t <;> norm_num [stationP, Cargo.get])
  ⟨h.1, h.2.1, h.2.2.2.1⟩

/-! Claim C5: the alien drain tick. -/

theorem mem_availableTypes (c : Cargo) (t : MineralType) :
    t ∈ availableTypes c ↔ 0 < c.get t := by
  simp only [availableTypes, List.mem_filter, decide_eq_true_eq, and_iff_right_iff_imp]
  intro _
  cases t <;> simp [mineralTypes]

theorem availableTypes_eq_nil (c : Cargo) (h : ∀ t, c.get t ≤ 0) :
    availableTypes c = [] := by
  unfold availableTypes
  rw [List.filter_eq_nil_iff]
  intro t _
  simpa using not_lt.mpr (h t)

/-- drainStep on a firing tick with an available pick: the steal branch. -/
theorem drainStep_steal (cargo stolen : Cargo) (timer pickIdx : ℕ)
    (htick : ALIEN_DRAIN_INTERVAL ≤ timer + 1)
    (hlen : 0 < (availableTypes cargo).length) :
    drainStep cargo stolen timer true true pickIdx =
      { cargo := cargo.set ((availableTypes cargo).getD pickIdx MineralType.iron)
          (cargo.get ((availableTypes cargo).getD pickIdx MineralType.iron) - 1)
        stolen := stolen.set ((availableTypes cargo).getD pickIdx MineralType.iron)
          (stolen.get ((availableTypes cargo).getD pickIdx MineralType.iron) + 1)
        timer := 0
        stoleType := some ((availableTypes cargo).getD pickIdx MineralType.iron) } := by
  simp only [drainStep, Bool.and_self, eq_self_iff_true, if_true, if_pos htick,
    if_pos hlen]

/-- drainStep on a firing tick with empty cargo: the no-transfer branch. -/
theorem drainStep_empty (cargo stolen : Cargo) (timer pickIdx : ℕ)
    (htick : ALIEN_DRAIN_INTERVAL ≤ timer + 1)
    (hlen : ¬ 0 < (availableTypes cargo).length) :
    drainStep cargo stolen timer true true pickIdx =
      { cargo := cargo, stolen := stolen, timer := 0, stoleType := none } := by
  simp only [drainStep, Bool.and_self, eq_self_iff_true, if_true, if_pos htick,
    if_neg hlen]

/-- Claim C5: on a drain tick (timer reaching the interval while DRAINING in
range), exactly one unit of one available type moves from ship cargo to
stolenCargo, with every other count untouched; with no available type
nothing moves; the timer resets either way; and natural-valued cargo never
goes negative. -/
theorem drain_tick (cargo stolen : Cargo) (timer pickIdx : ℕ)
    (htick : ALIEN_DRAIN_INTERVAL ≤ timer + 1) :
    (drainStep cargo stolen timer true true pickIdx).timer = 0 ∧
    (∀ hp : pickIdx < (availableTypes cargo).length,
      0 < cargo.get ((availableTypes cargo).get ⟨pickIdx, hp⟩) ∧
      (drainStep cargo stolen timer true true pickIdx).cargo.get
          ((availableTypes cargo).get ⟨pickIdx, hp⟩) =
        cargo.get ((availableTypes cargo).get ⟨pickIdx, hp⟩) - 1 ∧
      (drainStep cargo stolen timer true true pickIdx).stolen.get
          ((availableTypes cargo).get ⟨pickIdx, hp⟩) =
        stolen.get ((availableTypes cargo).get ⟨pickIdx, hp⟩) + 1 ∧
      ∀ u, u ≠ (availableTypes cargo).get ⟨pickIdx, hp⟩ →
        (drainStep cargo stolen timer true true pickIdx).cargo.get u = cargo.get u ∧
        (drainStep cargo stolen timer true true pickIdx).stolen.get u = stolen.get u) ∧
    ((∀ t, cargo.get t ≤ 0) →
      (drainStep cargo stolen timer true true pickIdx).cargo = cargo ∧
      (drainStep cargo stolen timer true true pickIdx).stolen = stolen ∧
      (drainStep cargo stolen timer true true pickIdx).stoleType = none) ∧
    ((∀ t, ∃ n : ℕ, cargo.get t = n) →
      pickIdx < (availableTypes cargo).length ∨ availableTypes cargo = [] →
      ∀ t, 0 ≤ (drainStep cargo stolen timer true true pickIdx).cargo.get t) := by
  refine ⟨?_, fun hp => ?_, fun hz => ?_, fun hnat hvalid t => ?_⟩
  · by_cases hlen : 0 < (availableTypes cargo).length
    · rw [drainStep_steal cargo stolen timer pickIdx htick hlen]
    · rw [drainStep_empty cargo stolen timer pickIdx htick hlen]
  · have hlen : 0 < (availableTypes cargo).length := lt_of_le_of_lt (Nat.zero_le _) hp
    have hgetD : (availableTypes cargo).getD pickIdx MineralType.iron =
        (availableTypes cargo).get ⟨pickIdx, hp⟩ := by
      rw [List.getD_eq_get?, List.get?_eq_get hp, Option.getD_some]
    have hmem : (availableTypes cargo).get ⟨pickIdx, hp⟩ ∈ availableTypes cargo :=
      List.get_mem _ _ _
    have hpos := (mem_availableTypes cargo _).mp hmem
    rw [drainStep_steal cargo stolen timer pickIdx htick hlen]
    refine ⟨hpos, ?_, ?_, fun u hu => ⟨?_, ?_⟩⟩ <;>
      simp only [hgetD] <;>
      first
        | rw [Cargo.get_set_same]
        | rw [Cargo.get_set_ne _ _ _ _ hu]
  · have hnil : availableTypes cargo = [] := availableTypes_eq_nil cargo hz
    have hlen : ¬ 0 < (availableTypes cargo).length := by simp [hnil]
    rw [drainStep_empty cargo stolen timer pickIdx htick hlen]
    exact ⟨rfl, rfl, rfl⟩
  · rcases hvalid with hp | hnil
    · have hlen : 0 < (availableTypes cargo).length := lt_of_le_of_lt (Nat.zero_le _) hp
      have hgetD : (availableTypes cargo).getD pickIdx MineralType.iron =
          (availableTypes cargo).get ⟨pickIdx, hp⟩ := by
        rw [List.getD_eq_get?, List.get?_eq_get hp, Option.getD_some]
      have hmem : (availableTypes cargo).get ⟨pickIdx, hp⟩ ∈ availableTypes cargo :=
        List.get_mem _ _ _
      have hpos := (mem_availableTypes cargo _).mp hmem
      rw [drainStep_steal cargo stolen timer pickIdx htick hlen]
      simp only [hgetD]
      by_cases hu : t = (availableTypes cargo).get ⟨pickIdx, hp⟩
      · rw [hu, Cargo.get_set_same]
        obtain ⟨n, hn⟩ := hnat ((availableTypes cargo).get ⟨pickIdx, hp⟩)
        rw [hn] at hpos ⊢
        have h1 : (1 : ℚ) ≤ (n : ℚ) := by
          exact_mod_cast Nat.one_le_iff_ne_zero.mpr (by
            rintro rfl
            simp at hpos)
        linarith
      · rw [Cargo.get_set_ne _ _ _ _ hu]
        obtain ⟨n, hn⟩ := hnat t
        rw [hn]
        positivity
    · have hlen : ¬ 0 < (availableTypes cargo).length := by simp [hnil]
      rw [drainStep_empty cargo stolen timer pickIdx htick hlen]
      obtain ⟨n, hn⟩ := hnat t
      simp only
      rw [hn]
      positivity

/-- Witness for C5: cargo {Iron 3, Gold 2}, timer at 44, pick index 1: one
gold unit moves to the alien and the timer resets. -/
theorem drain_tick_witness :
    ALIEN_DRAIN_INTERVAL ≤ 44 + 1 ∧
    (drainStep drainCargo emptyCargo 44 true true 1).cargo.get MineralType.gold = 1 ∧
    (drainStep drainCargo emptyCargo 44 true true 1).stolen.get MineralType.gold = 1 ∧
    (drainStep drainCargo emptyCargo 44 true true 1).timer = 0 := by
  have havail : availableTypes drainCargo = [MineralType.iron, MineralType.gold] := by
    norm_num [availableTypes, mineralTypes, drainCargo, Cargo.get,
      List.filter_cons, List.filter_nil, decide_eq_true_eq]
  have htick : ALIEN_DRAIN_INTERVAL ≤ 44 + 1 := by norm_num [ALIEN_DRAIN_INTERVAL]
  have h := drain_tick drainCargo emptyCargo 44 1 htick
  have hp : (1 : ℕ) < (availableTypes drainCargo).length := by
    rw [havail]; norm_num
  have hget : (availableTypes drainCargo).get ⟨1, hp⟩ = MineralType.gold := by
    rw [List.get_of_eq havail]
    rfl
  obtain ⟨htimer, hsteal, -, -⟩ := h
  obtain ⟨hpos, hc, hs, -⟩ := hsteal hp
  rw [hget] at hc hs
  refine ⟨htick, ?_, ?_, htimer⟩
  · rw [hc]
    norm_num [drainCargo, Cargo.get]
  · rw [hs]
    norm_num [emptyCargo, Cargo.get]

/-! Claim C4: single-target laser resolution. -/

theorem findMiningTarget_eq_none (e : CombatEnv) (l : List Asteroid) :
    findMiningTarget e l = none ↔ ∀ a ∈ l, astHit e a = false := by
  induction l with
  | nil => simp [findMiningTarget]
  | cons hd rest ih =>
    simp only [findMiningTarget]
    by_cases hh : astHit e hd = true
    · simp [hh]
    · rw [if_neg hh]
      rw [Option.map_eq_none', ih]
      constructor
      · intro hrest a ha
        rcases List.mem_cons.mp ha with rfl | ha
        · simpa using hh
        · exact hrest a ha
      · intro hall a ha
        exact hall a (List.mem_cons_of_mem _ ha)

theorem findMiningTarget_eq_some (e : CombatEnv) (l : List Asteroid) (i : ℕ)
    (a : Asteroid) (h : findMiningTarget e l = some (i, a)) :
    l.get? i = some a ∧ astHit e a = true ∧
    ∀ j b, j < i → l.get? j = some b → astHit e b = false := by
  induction l generalizing i with
  | nil => simp [findMiningTarget] at h
  | cons hd rest ih =>
    simp only [findMiningTarget] at h
    by_cases hh : astHit e hd = true
    · rw [if_pos hh] at h
      obtain ⟨hi, ha⟩ : 0 = i ∧ hd = a := by
        simpa [Prod.ext_iff] using h
      subst hi
      subst ha
      exact ⟨rfl, hh, fun j b hj => absurd hj (Nat.not_lt_zero j)⟩
    · rw [if_neg hh] at h
      rcases hmap : findMiningTarget e rest with _ | ⟨j, b⟩
      · rw [hmap] at h
        simp at h
      · rw [hmap] at h
        obtain ⟨hi, ha⟩ : j + 1 = i ∧ b = a := by
          simpa [Prod.ext_iff] using h
        subst hi
        subst ha
        obtain ⟨h1, h2, h3⟩ := ih j hmap
        refine ⟨h1, h2, fun k c hk hc => ?_⟩
        cases k with
        | zero =>
          obtain rfl : hd = c := by simpa using hc
          simpa using hh
        | succ k =>
          exact h3 k c (Nat.lt_of_succ_lt_succ hk) (by simpa using hc)

theorem asteroidPhase_alien_eq (e : CombatEnv) (alien : Option Alien)
    (asts : List Asteroid) : (asteroidPhase e alien asts).alien = alien := by
  unfold asteroidPhase
  rcases findMiningTarget e asts with _ | ⟨i, a⟩
  · rfl
  · simp only
    split <;> rfl

theorem asteroidPhase_of_none (e : CombatEnv) (alien : Option Alien)
    (asts : List Asteroid) (h : findMiningTarget e asts = none) :
    asteroidPhase e alien asts =
      { fuel := e.fuel, alien := alien, asteroids := asts, loot := []
        particles := 0, attackingAlien := false, targetIdx := none } := by
  unfold asteroidPhase
  rw [h]

theorem asteroidPhase_of_some (e : CombatEnv) (alien : Option Alien)
    (asts : List Asteroid) (i : ℕ) (a : Asteroid)
    (h : findMiningTarget e asts = some (i, a)) :
    (a.health - e.cfg.miningPower ≤ 0 →
      (asteroidPhase e alien asts).asteroids = asts.eraseIdx i) ∧
    (¬ a.health - e.cfg.miningPower ≤ 0 →
      (asteroidPhase e alien asts).asteroids =
        asts.set i { a with health := a.health - e.cfg.miningPower, isHeating := true }) := by
  unfold asteroidPhase
  rw [h]
  simp only
  constructor
  · intro hd
    rw [if_pos hd]
  · intro hd
    rw [if_neg hd]

theorem combatStep_eq_asteroidPhase (e : CombatEnv) (alien : Option Alien)
    (asts : List Asteroid) (hg : (e.mouseDown && decide (0 < e.fuel)) = true)
    (hal : ∀ al, alien = some al → alienAim e al = false) :
    combatStep e alien asts = asteroidPhase e alien asts := by
  unfold combatStep
  rw [if_pos hg]
  rcases alien with _ | al
  · rfl
  · have haim := hal al rfl
    simp [haim]

/-- Claim C4: at most one entity is damaged per frame, only while the mouse
button is down with fuel > 0; a present alien passing the aim-assist test is
the sole target and the asteroid scan is skipped; otherwise the target is
the first asteroid in iteration order whose bounding circle contains the
cursor within miningRange of the ship, every earlier asteroid failing the
test, and no second entity is touched. -/
theorem single_laser_target (e : CombatEnv) (alien : Option Alien)
    (asts : List Asteroid) :
    (¬ (e.mouseDown = true ∧ 0 < e.fuel) →
      combatStep e alien asts =
        { fuel := e.fuel, alien := alien, asteroids := asts, loot := []
          particles := 0, attackingAlien := false, targetIdx := none }) ∧
    (∀ al, e.mouseDown = true → 0 < e.fuel → alien = some al →
      alienAim e al = true →
      (combatStep e alien asts).asteroids = asts ∧
      (al.hp - e.cfg.miningPower ≤ 0 → (combatStep e alien asts).alien = none) ∧
      (¬ al.hp - e.cfg.miningPower ≤ 0 →
        (combatStep e alien asts).alien =
          some { al with hp := al.hp - e.cfg.miningPower })) ∧
    (e.mouseDown = true → 0 < e.fuel →
      (∀ al, alien = some al → alienAim e al = false) →
      (combatStep e alien asts).alien = alien ∧
      (findMiningTarget e asts = none →
        (combatStep e alien asts).asteroids = asts ∧
        ∀ a ∈ asts, astHit e a = false) ∧
      (∀ i a, findMiningTarget e asts = some (i, a) →
        asts.get? i = some a ∧ astHit e a = true ∧
        (∀ j b, j < i → asts.get? j = some b → astHit e b = false) ∧
        (a.health - e.cfg.miningPower ≤ 0 →
          (combatStep e alien asts).asteroids = asts.eraseIdx i) ∧
        (¬ a.health - e.cfg.miningPower ≤ 0 →
          (combatStep e alien asts).asteroids =
            asts.set i { a with health := a.health - e.cfg.miningPower, isHeating := true }))) := by
  refine ⟨fun hneg => ?_, fun al hmd hf hal haim => ?_, fun hmd hf hal => ?_⟩
  · unfold combatStep
    rw [if_neg (by simp only [Bool.and_eq_true, decide_eq_true_eq]; exact hneg)]
  · have hg : (e.mouseDown && decide (0 < e.fuel)) = true := by
      simp [hmd, hf]
    subst hal
    unfold combatStep
    rw [if_pos hg]
    simp only [haim, eq_self_iff_true, if_true]
    refine ⟨?_, fun hd => ?_, fun hd => ?_⟩
    · split <;> rfl
    · rw [if_pos hd]
    · rw [if_neg hd]
  · have hg : (e.mouseDown && decide (0 < e.fuel)) = true := by
      simp [hmd, hf]
    rw [combatStep_eq_asteroidPhase e alien asts hg hal]
    refine ⟨asteroidPhase_alien_eq e alien asts, fun hnone => ?_, fun i a hsome => ?_⟩
    · rw [asteroidPhase_of_none e alien asts hnone]
      exact ⟨rfl, (findMiningTarget_eq_none e asts).mp hnone⟩
    · obtain ⟨h1, h2, h3⟩ := findMiningTarget_eq_some e asts i a hsome
      obtain ⟨h4, h5⟩ := asteroidPhase_of_some e alien asts i a hsome
      exact ⟨h1, h2, h3, h4, h5⟩

/-- Witness for C4: button down, full tank, no alien, one asteroid under the
cursor: that asteroid alone is damaged by one miningPower tick. -/
theorem single_laser_target_witness :
    (combatStep (mineEnv false 1000) none [mineAst]).alien = none ∧
    (combatStep (mineEnv false 1000) none [mineAst]).asteroids =
      [{ mineAst with health := mineAst.health - (mineEnv false 1000).cfg.miningPower, isHeating := true }] := by
  have hfind : findMiningTarget (mineEnv false 1000) [mineAst] = some (0, mineAst) := by
    unfold findMiningTarget
    rw [if_pos]
    unfold astHit
    norm_num [mineEnv, mineAst, INITIAL_SHIP_CONFIG]
  have h := single_laser_target (mineEnv false 1000) none [mineAst]
  obtain ⟨halien, -, hsome⟩ := h.2.2 rfl (by norm_num [mineEnv]) (by rintro al ⟨⟩)
  obtain ⟨-, -, -, -, hset⟩ := hsome 0 mineAst hfind
  refine ⟨halien, ?_⟩
  rw [hset (by norm_num [mineAst, mineEnv, INITIAL_SHIP_CONFIG])]
  rfl

/-! Claim C3: the continuous-mining destruction scenario. -/

theorem mineEnv_astHit (a : Asteroid) (sp : Bool) (f : ℚ)
    (hx : a.x = 100) (hy : a.y = 0) (hr : a.radius = 40) :
    astHit (mineEnv sp f) a = true := by
  simp only [astHit, mineEnv, INITIAL_SHIP_CONFIG, hx, hy, hr,
    Bool.and_eq_true, decide_eq_true_eq]
  norm_num

theorem mineEnv_guard (sp : Bool) (f : ℚ) (hf : 0 < f) :
    ((mineEnv sp f).mouseDown && decide (0 < (mineEnv sp f).fuel)) = true := by
  simp [mineEnv, hf]

/-- One continuously-targeted combat frame that leaves the asteroid alive:
health drops by miningPower = 3/2, the heating flag lights, fuel drops by
half the thrust rate, no loot spawns. -/
theorem combat_hit (a : Asteroid) (f : ℚ) (sp : Bool) (hf : 0 < f)
    (hx : a.x = 100) (hy : a.y = 0) (hr : a.radius = 40)
    (hh : ¬ a.health - 3/2 ≤ 0) :
    combatStep (mineEnv sp f) none [a] =
      { fuel := f - 1/4, alien := none
        asteroids := [{ a with health := a.health - 3/2, isHeating := true }]
        loot := [], particles := if sp then 1 else 0
        attackingAlien := false, targetIdx := some 0 } := by
  rw [combatStep_eq_asteroidPhase _ _ _ (mineEnv_guard sp f hf) (by rintro al ⟨⟩)]
  unfold asteroidPhase
  have hfind : findMiningTarget (mineEnv sp f) [a] = some (0, a) := by
    unfold findMiningTarget
    rw [if_pos (mineEnv_astHit a sp f hx hy hr)]
  rw [hfind]
  simp only
  have hcond : ¬ a.health - (mineEnv sp f).cfg.miningPower ≤ 0 := by
    simpa [mineEnv, INITIAL_SHIP_CONFIG] using hh
  rw [if_neg hcond]
  simp only [mineEnv, INITIAL_SHIP_CONFIG, List.set_cons_zero, CombatResult.mk.injEq,
    List.cons.injEq, and_true, true_and]
  norm_num

/-- The destroying combat frame: health crosses zero, the asteroid is
removed, one loot item of amount floor(radius / 5) = 8 spawns, and
8 + 15 = 23 particles spawn beyond the optional spark. -/
theorem combat_kill (a : Asteroid) (f : ℚ) (sp : Bool) (hf : 0 < f)
    (hx : a.x = 100) (hy : a.y = 0) (hr : a.radius = 40)
    (hh : a.health - 3/2 ≤ 0) :
    combatStep (mineEnv sp f) none [a] =
      { fuel := f - 1/4, alien := none, asteroids := []
        loot := [{ x := a.x, y := a.y, vx := 0, vy := 0, type := a.type, amount := 8, life := 1800 }]
        particles := (if sp then 1 else 0) + 8 + 15
        attackingAlien := false, targetIdx := some 0 } := by
  rw [combatStep_eq_asteroidPhase _ _ _ (mineEnv_guard sp f hf) (by rintro al ⟨⟩)]
  unfold asteroidPhase
  have hfind : findMiningTarget (mineEnv sp f) [a] = some (0, a) := by
    unfold findMiningTarget
    rw [if_pos (mineEnv_astHit a sp f hx hy hr)]
  rw [hfind]
  simp only
  have hcond : a.health - (mineEnv sp f).cfg.miningPower ≤ 0 := by
    simpa [mineEnv, INITIAL_SHIP_CONFIG] using hh
  rw [if_pos hcond]
  simp only [mineEnv, INITIAL_SHIP_CONFIG, CombatResult.mk.injEq, List.cons.injEq,
    Loot.mk.injEq, LOOT_DESPAWN_TIME, and_true, true_and]
  rw [hr]
  norm_num [List.eraseIdx]

theorem mineTick_empty (f : ℚ) : mineTick ([], f) = ([], f) := by
  unfold mineTick combatStep
  split <;> rfl

/-- Closed form of the continuous-mining trajectory for the first 66
hit-frames: health 100 - 1.5 n, fuel 1000 - n/4, asteroid still alive. -/
theorem mineRun_formula (n : ℕ) (h1 : 1 ≤ n) (h66 : n ≤ 66) :
    mineRun n =
      ([{ mineAst with health := 100 - (3/2) * (n : ℚ), isHeating := true }],
        1000 - (1/4) * (n : ℚ)) := by
  induction n with
  | zero => omega
  | succ m ih =>
    rcases Nat.eq_zero_or_pos m with rfl | hm
    · show mineTick (mineRun 0) = _
      show mineTick ([mineAst], 1000) = _
      unfold mineTick
      rw [combat_hit mineAst 1000 false (by norm_num) rfl rfl rfl
        (by norm_num [mineAst])]
      simp only [mineAst, Asteroid.mk.injEq, List.cons.injEq, Prod.mk.injEq,
        and_true, true_and]
      norm_num
    · have hm66 : (m : ℚ) ≤ 65 := by
        have : m ≤ 65 := by omega
        exact_mod_cast this
      have hrun := ih hm (by omega)
      show mineTick (mineRun m) = _
      rw [hrun]
      unfold mineTick
      rw [combat_hit _ _ false (by linarith) rfl rfl rfl (by
        simp only [mineAst]
        norm_num
        linarith)]
      simp only [mineAst, Asteroid.mk.injEq, List.cons.injEq, Prod.mk.injEq,
        and_true, true_and]
      push_cast
      constructor <;> ring

/-- Claim C3: a health-100 asteroid continuously targeted at
miningPower 1.5 survives 66 hit-frames (health 1 left) and is destroyed on
the 67th: removed from the collection, exactly one loot item of its mineral
type with amount floor(40 / 5) = 8 spawned, at least 8 + 15 = 23 particles
spawned whatever the spark draw, and the collection stays empty ever
after. -/
theorem asteroid_destroyed_on_67th (sp : Bool) :
    (mineRun 66).1 = [{ mineAst with health := 1, isHeating := true }] ∧
    (combatStep (mineEnv sp (mineRun 66).2) none (mineRun 66).1).asteroids = [] ∧
    (combatStep (mineEnv sp (mineRun 66).2) none (mineRun 66).1).loot =
      [{ x := 100, y := 0, vx := 0, vy := 0, type := MineralType.gold, amount := 8, life := 1800 }] ∧
    23 ≤ (combatStep (mineEnv sp (mineRun 66).2) none (mineRun 66).1).particles ∧
    ∀ k : ℕ, (mineRun (67 + k)).1 = [] := by
  have h66 := mineRun_formula 66 (by omega) (by omega)
  have h66a : (mineRun 66).1 = [{ mineAst with health := 1, isHeating := true }] := by
    rw [h66]
    norm_num [mineAst]
  have h66f : (mineRun 66).2 = 1967/2 := by
    rw [h66]
    norm_num
  have hkill := combat_kill { mineAst with health := 1, isHeating := true }
    (1967/2) sp (by norm_num) rfl rfl rfl (by norm_num)
  have hcomb : combatStep (mineEnv sp (mineRun 66).2) none (mineRun 66).1 =
      { fuel := 1967/2 - 1/4, alien := none, asteroids := []
        loot := [{ x := 100, y := 0, vx := 0, vy := 0, type := MineralType.gold, amount := 8, life := 1800 }]
        particles := (if sp then 1 else 0) + 8 + 15
        attackingAlien := false, targetIdx := some 0 } := by
    rw [h66a, h66f, hkill]
    norm_num [mineAst]
  have h67 : mineRun 67 = ([], 1967/2 - 1/4) := by
    show mineTick (mineRun 66) = _
    unfold mineTick
    rw [h66a, h66f, combat_kill { mineAst with health := 1, isHeating := true }
      (1967/2) false (by norm_num) rfl rfl rfl (by norm_num)]
  refine ⟨h66a, by rw [hcomb], by rw [hcomb], by rw [hcomb]; split <;> norm_num, ?_⟩
  intro k
  induction k with
  | zero => rw [h67]
  | succ j ihj =>
    have hpair : mineRun (67 + j) = ([], (mineRun (67 + j)).2) :=
      Prod.ext_iff.mpr ⟨ihj, rfl⟩
    have : (67 : ℕ) + (j + 1) = (67 + j) + 1 := by omega
    rw [this]
    show (mineTick (mineRun (67 + j))).1 = []
    rw [hpair, mineTick_empty]

/-- Witness for C3: the 67th continuously-targeted frame leaves the active
collection empty. -/
theorem asteroid_destroyed_on_67th_witness : (mineRun 67).1 = [] := by
  have h := asteroid_destroyed_on_67th false
  simpa using h.2.2.2.2 0

/-! Claim C2: the cargo-capacity invariant. -/

theorem lootUpdate1_total_le (maxC sx sy : ℚ) (c : Cargo) (l : Loot)
    (h : c.total ≤ maxC) : (lootUpdate1 maxC sx sy c l).1.total ≤ maxC := by
  simp only [lootUpdate1]
  split
  · split
    · next hfit =>
      simp only
      rw [Cargo.total_set]
      linarith
    · exact h
  · exact h

theorem lootPass_total_le (maxC sx sy : ℚ) (c : Cargo) (ls : List Loot)
    (h : c.total ≤ maxC) : (lootPass maxC sx sy c ls).1.total ≤ maxC := by
  induction ls generalizing c with
  | nil => simpa [lootPass] using h
  | cons l ls ih =>
    simp only [lootPass]
    exact ih _ (lootUpdate1_total_le maxC sx sy c l h)

theorem drainStep_total_le (cargo stolen : Cargo) (timer : ℕ)
    (isDraining inRange : Bool) (pickIdx : ℕ) :
    (drainStep cargo stolen timer isDraining inRange pickIdx).cargo.total ≤
      cargo.total := by
  simp only [drainStep]
  split
  · split
    · split
      · simp only
        rw [Cargo.total_set]
        linarith
      · exact le_refl _
    · exact le_refl _
  · exact le_refl _

theorem alienUpdate_total_le (sx sy : ℚ) (cargo : Cargo) (al : Alien)
    (aCos aSin aSpeed : ℚ) (pickIdx : ℕ) :
    (alienUpdate sx sy cargo al aCos aSin aSpeed pickIdx).2.1.total ≤
      cargo.total := by
  simp only [alienUpdate]
  exact drainStep_total_le _ _ _ _ _ _

theorem frameAlienStep_total_le (st : GameFrameState) (inp : FrameInput)
    (o : FrameOracles) :
    (frameAlienStep st inp o).2.total ≤ st.ship.cargo.total := by
  unfold frameAlienStep
  rcases frameAlienSpawn st inp o with _ | al
  · exact le_refl _
  · exact alienUpdate_total_le _ _ _ _ _ _ _ _

/-- Claim C2: from a state whose cargo total is within maxCargo, the whole
frame (theft plus every loot-collection step) keeps the total within
maxCargo; and each loot item is either fully absorbed (only when
total + amount <= maxCargo: whole amount added to its type, life zeroed) or
leaves cargo and item untouched apart from the ordinary per-frame movement
(never a split collection). -/
theorem cargo_capacity (st : GameFrameState) (inp : FrameInput)
    (o : FrameOracles) (h : st.ship.cargo.total ≤ st.ship.shipConfig.maxCargo) :
    (∀ c, (frame st inp o).cargoOf = some c →
      c.total ≤ st.ship.shipConfig.maxCargo) ∧
    (∀ maxC sx sy (c : Cargo) (l : Loot),
      ((sx - (lootMove l).x) ^ 2 + (sy - (lootMove l).y) ^ 2 <
          LOOT_COLLECTION_RANGE ^ 2 →
        (c.total + (lootMove l).amount ≤ maxC →
          (lootUpdate1 maxC sx sy c l).1.total = c.total + l.amount ∧
          (lootUpdate1 maxC sx sy c l).1.get l.type = c.get l.type + l.amount ∧
          (∀ u, u ≠ l.type → (lootUpdate1 maxC sx sy c l).1.get u = c.get u) ∧
          (lootUpdate1 maxC sx sy c l).2.life = 0) ∧
        (¬ c.total + (lootMove l).amount ≤ maxC →
          (lootUpdate1 maxC sx sy c l).1 = c ∧
          (lootUpdate1 maxC sx sy c l).2 = lootMove l)) ∧
      (¬ (sx - (lootMove l).x) ^ 2 + (sy - (lootMove l).y) ^ 2 <
          LOOT_COLLECTION_RANGE ^ 2 →
        (lootUpdate1 maxC sx sy c l).1 = c ∧
        (lootUpdate1 maxC sx sy c l).2 = lootMove l)) := by
  constructor
  · intro c hc
    have hstage : (frameLoot st inp o).1.total ≤ st.ship.shipConfig.maxCargo := by
      unfold frameLoot lootStage
      simp only
      exact lootPass_total_le _ _ _ _ _
        (le_trans (frameAlienStep_total_le st inp o) h)
    have hship : (frameShip st inp o).cargo = (frameLoot st inp o).1 := rfl
    simp only [frame] at hc
    split at hc
    · simp [FrameExit.cargoOf] at hc
    · split at hc
      · split at hc
        · simp only [FrameExit.cargoOf, Option.some.injEq] at hc
          rw [← hc, hship]
          exact hstage
        · simp only [FrameExit.cargoOf, Option.some.injEq] at hc
          rw [← hc]
          exact hstage
      · simp only [FrameExit.cargoOf, Option.some.injEq] at hc
        rw [← hc]
        exact hstage
  · intro maxC sx sy c l
    refine ⟨fun hin => ⟨fun hfit => ?_, fun hfull => ?_⟩, fun hout => ?_⟩
    · have hl : lootUpdate1 maxC sx sy c l =
          (c.set (lootMove l).type (c.get (lootMove l).type + (lootMove l).amount),
            { lootMove l with life := 0 }) := by
        unfold lootUpdate1
        rw [if_pos hin, if_pos hfit]
      have hty : (lootMove l).type = l.type := rfl
      have ham : (lootMove l).amount = l.amount := rfl
      rw [hl]
      refine ⟨?_, ?_, fun u hu => ?_, rfl⟩
      · simp only [hty, ham]
        rw [Cargo.total_set]
        ring
      · simp only [hty, ham]
        rw [Cargo.get_set_same]
      · simp only [hty, ham]
        rw [Cargo.get_set_ne _ _ _ _ hu]
    · unfold lootUpdate1
      rw [if_pos hin, if_neg hfull]
      exact ⟨rfl, rfl⟩
    · unfold lootUpdate1
      rw [if_neg hout]
      exact ⟨rfl, rfl⟩

/-- Witness for C2: the quiet docking frame keeps the (empty) cargo within
the 20-unit hold. -/
theorem cargo_capacity_witness :
    dockSt.ship.cargo.total ≤ dockSt.ship.shipConfig.maxCargo ∧
    emptyCargo.total ≤ dockSt.ship.shipConfig.maxCargo := by
  have h0 : dockSt.ship.cargo.total ≤ dockSt.ship.shipConfig.maxCargo := by
    norm_num [dockSt, emptyCargo, Cargo.total, INITIAL_SHIP_CONFIG]
  refine ⟨h0, ?_⟩
  have hph : framePhysics dockSt dockInp dockOr =
      { rotation := 0, velocity := ⟨3/10, 0⟩, position := ⟨3/10, 0⟩,
        fuel := 19999/20, isGameOver := false } := by
    norm_num [framePhysics, physicsStage, rotAfterKeys, thrustFires, velAfterThrust,
      fuelAfterThrust, velAfterDrag, velAfterCap, dockSt, dockInp, dockOr,
      INITIAL_SHIP_CONFIG]
  have hframe : frame dockSt dockInp dockOr =
      FrameExit.docked (frameShip dockSt dockInp dockOr) := by
    unfold frame
    rw [hph]
    norm_num [DOCKING_RANGE, dockOr]
  have hcargo : (frameShip dockSt dockInp dockOr).cargo = emptyCargo := by
    norm_num [frameShip, frameLoot, frameAlienStep, frameAlienSpawn, frameCombat,
      frameCombatEnv, combatStep, lootStage, lootPass, dockSt, dockInp, dockOr]
  have hw := (cargo_capacity dockSt dockInp dockOr h0).1 emptyCargo
  apply hw
  rw [hframe]
  simp only [FrameExit.cargoOf, hcargo]

/-! Frame-level helper lemmas shared by the fuel, docking and game-over
claims. -/

theorem combatStep_idle (e : CombatEnv) (alien : Option Alien)
    (asts : List Asteroid) (h : e.mouseDown = false) :
    combatStep e alien asts =
      { fuel := e.fuel, alien := alien, asteroids := asts, loot := []
        particles := 0, attackingAlien := false, targetIdx := none } := by
  unfold combatStep
  rw [if_neg (by simp [h])]

theorem frameAlienStep_none (st : GameFrameState) (inp : FrameInput)
    (o : FrameOracles) (h1 : st.alien = none) (h2 : o.spawnAlien = false) :
    frameAlienStep st inp o = (none, st.ship.cargo) := by
  unfold frameAlienStep frameAlienSpawn
  rw [h1]
  simp [h2]

theorem asteroidPhase_fuel (e : CombatEnv) (alien : Option Alien)
    (asts : List Asteroid) :
    (asteroidPhase e alien asts).fuel = e.fuel ∨
    (asteroidPhase e alien asts).fuel =
      e.fuel - e.cfg.thrustConsumptionRate * (1/2) := by
  unfold asteroidPhase
  rcases findMiningTarget e asts with _ | ⟨i, a⟩
  · left
    rfl
  · right
    simp only
    split <;> rfl

theorem physicsStage_not_gameOver (cfg : ShipConfig) (rot fuel : ℚ)
    (vel pos : Point) (kl kr kt : Bool) (cosR sinR speed : ℚ)
    (hT : 0 ≤ cfg.thrustConsumptionRate) (hf : cfg.thrustConsumptionRate < fuel) :
    (physicsStage cfg rot fuel vel pos kl kr kt cosR sinR speed).isGameOver = false := by
  have h1 : 0 < fuelAfterThrust cfg fuel kt := by
    unfold fuelAfterThrust
    split <;> linarith
  simp only [physicsStage]
  rw [if_pos h1]

theorem physicsStage_gameOver_iff (cfg : ShipConfig) (rot fuel : ℚ)
    (vel pos : Point) (kl kr kt : Bool) (cosR sinR speed : ℚ) :
    (physicsStage cfg rot fuel vel pos kl kr kt cosR sinR speed).isGameOver = true ↔
      (fuelAfterThrust cfg fuel kt ≤ 0 ∧
        |(velAfterCap cfg (velAfterDrag (velAfterThrust cfg vel fuel kt cosR sinR)) speed).x| < 1/10 ∧
        |(velAfterCap cfg (velAfterDrag (velAfterThrust cfg vel fuel kt cosR sinR)) speed).y| < 1/10) := by
  simp only [physicsStage]
  split
  · next h0 =>
    simp only [Bool.false_eq_true, false_iff]
    rintro ⟨h1, -, -⟩
    linarith
  · next h0 =>
    simp only [decide_eq_true_eq]
    constructor
    · intro h
      exact ⟨le_of_not_lt h0, h.1, h.2⟩
    · intro h
      exact ⟨h.2.1, h.2.2⟩

theorem physicsStage_fuel_lb (cfg : ShipConfig) (rot fuel : ℚ)
    (vel pos : Point) (kl kr kt : Bool) (cosR sinR speed : ℚ)
    (hT : 0 ≤ cfg.thrustConsumptionRate) (hI : 0 ≤ cfg.fuelConsumptionRate)
    (hB : -(max cfg.thrustConsumptionRate cfg.fuelConsumptionRate) < fuel) :
    -(max cfg.thrustConsumptionRate cfg.fuelConsumptionRate) <
      (physicsStage cfg rot fuel vel pos kl kr kt cosR sinR speed).fuel := by
  have hmid : -(max cfg.thrustConsumptionRate cfg.fuelConsumptionRate) <
      fuelAfterThrust cfg fuel kt := by
    unfold fuelAfterThrust thrustFires
    split
    · next hc =>
      simp only [Bool.and_eq_true, decide_eq_true_eq] at hc
      have := le_max_left cfg.thrustConsumptionRate cfg.fuelConsumptionRate
      linarith [hc.2]
    · exact hB
  simp only [physicsStage]
  split
  · next h0 =>
    simp only
    have := le_max_right cfg.thrustConsumptionRate cfg.fuelConsumptionRate
    linarith
  · next h0 =>
    exact hmid

theorem combatStep_fuel_lb (e : CombatEnv) (alien : Option Alien)
    (asts : List Asteroid) (B : ℚ) (hTB : e.cfg.thrustConsumptionRate ≤ B)
    (hT : 0 ≤ e.cfg.thrustConsumptionRate) (hB : -B < e.fuel) :
    -B < (combatStep e alien asts).fuel := by
  unfold combatStep
  split
  · next hg =>
    simp only [Bool.and_eq_true, decide_eq_true_eq] at hg
    have hf : 0 < e.fuel := hg.2
    have hhalf : -B < e.fuel - e.cfg.thrustConsumptionRate * (1/2) := by linarith
    have hast : ∀ a, -B < (asteroidPhase e a asts).fuel := fun a => by
      rcases asteroidPhase_fuel e a asts with h | h <;> rw [h] <;> linarith
    rcases alien with _ | al
    · exact hast none
    · show -B < (if alienAim e al = true then _ else asteroidPhase e (some al) asts).fuel
      by_cases haim : alienAim e al = true
      · rw [if_pos haim]
        dsimp only
        split <;> exact hhalf
      · rw [if_neg haim]
        exact hast (some al)
  · exact hB

/-! Claim C7: the game-over gate. -/

/-- Claim C7: the frame exits with the game-over callback exactly when the
fuel level left after the thrust deduction is at or below zero AND both
post-drag, post-cap velocity components are below 0.1 in magnitude; the
gameOver exit carries no continuation state, so the transition is one-way
and the loop stops. -/
theorem game_over_exact (st : GameFrameState) (inp : FrameInput)
    (o : FrameOracles) :
    frame st inp o = FrameExit.gameOver ↔
      (fuelAfterThrust st.ship.shipConfig st.ship.currentFuel inp.keyThrust ≤ 0 ∧
        |(velAfterCap st.ship.shipConfig (velAfterDrag (velAfterThrust st.ship.shipConfig st.ship.velocity st.ship.currentFuel inp.keyThrust o.cosR o.sinR)) o.speed).x| < 1/10 ∧
        |(velAfterCap st.ship.shipConfig (velAfterDrag (velAfterThrust st.ship.shipConfig st.ship.velocity st.ship.currentFuel inp.keyThrust o.cosR o.sinR)) o.speed).y| < 1/10) := by
  rw [← physicsStage_gameOver_iff st.ship.shipConfig st.ship.rotation
    st.ship.currentFuel st.ship.velocity st.ship.position inp.keyLeft
    inp.keyRight inp.keyThrust o.cosR o.sinR o.speed]
  show frame st inp o = FrameExit.gameOver ↔ (framePhysics st inp o).isGameOver = true
  simp only [frame]
  by_cases hgo : (framePhysics st inp o).isGameOver = true
  · rw [if_pos hgo]
    simp [hgo]
  · rw [if_neg hgo]
    constructor
    · intro h
      split at h
      · split at h
        · exact FrameExit.noConfusion h
        · exact FrameExit.noConfusion h
      · exact FrameExit.noConfusion h
    · intro h
      exact absurd h hgo

/-- Witness for C7: a ship on an empty tank at rest exits with game over. -/
theorem game_over_exact_witness : frame emptySt emptyInp emptyOr = FrameExit.gameOver := by
  apply (game_over_exact emptySt emptyInp emptyOr).mpr
  refine ⟨?_, ?_, ?_⟩ <;>
    norm_num [fuelAfterThrust, thrustFires, velAfterCap, velAfterDrag,
      velAfterThrust, emptySt, emptyInp, emptyOr, INITIAL_SHIP_CONFIG]

/-! Claim C6: the docking gate (corrected: the game-over return
preempts it on fuel-dead frames). -/

/-- Counterexample to C6 as stated: a fuel-dead frame whose end-of-frame
position is inside the docking radius with speed 99/2000 < 0.5 exits
through the game-over return of lines 290-297 instead of invoking the dock
callback: the dock condition of the claim holds, yet no dock occurs. -/
theorem docking_gate_counterexample :
    (framePhysics deadDockSt dockInp deadDockOr).position.x ^ 2 +
      (framePhysics deadDockSt dockInp deadDockOr).position.y ^ 2 <
      DOCKING_RANGE ^ 2 ∧
    0 ≤ deadDockOr.speed ∧ deadDockOr.speed < 1/2 ∧
    deadDockOr.speed ^ 2 =
      (velAfterDrag (velAfterThrust deadDockSt.ship.shipConfig deadDockSt.ship.velocity deadDockSt.ship.currentFuel dockInp.keyThrust deadDockOr.cosR deadDockOr.sinR)).x ^ 2 +
      (velAfterDrag (velAfterThrust deadDockSt.ship.shipConfig deadDockSt.ship.velocity deadDockSt.ship.currentFuel dockInp.keyThrust deadDockOr.cosR deadDockOr.sinR)).y ^ 2 ∧
    frame deadDockSt dockInp deadDockOr = FrameExit.gameOver := by
  have hph : framePhysics deadDockSt dockInp deadDockOr =
      { rotation := 0, velocity := ⟨99/2000, 0⟩, position := ⟨99/2000, 0⟩
        fuel := 0, isGameOver := true } := by
    norm_num [framePhysics, physicsStage, rotAfterKeys, thrustFires,
      velAfterThrust, fuelAfterThrust, velAfterDrag, velAfterCap, deadDockSt,
      dockInp, deadDockOr, INITIAL_SHIP_CONFIG, decide_eq_true_eq,
      abs_of_pos (show (0:ℚ) < 99/2000 by norm_num)]
  refine ⟨?_, ?_, ?_, ?_, ?_⟩
  · rw [hph]
    norm_num [DOCKING_RANGE]
  · norm_num [deadDockOr]
  · norm_num [deadDockOr]
  · norm_num [deadDockOr, deadDockSt, dockInp, velAfterDrag, velAfterThrust,
      thrustFires, INITIAL_SHIP_CONFIG]
  · simp only [frame]
    rw [hph]
    rfl

/-- Claim C6 (amended): the dock callback fires, with the live end-of-frame
ship state, exactly on the frames where the game-over gate of lines 290-297
does not fire (its condition: post-thrust fuel at or below zero and both
post-drag, post-cap velocity components below 0.1), the end-of-frame
position lies strictly inside the docking radius, and the pre-cap speed
(the Math.sqrt oracle of the post-drag velocity) is below 0.5.  The outer
speed < 2 gate allows no extra dockings, and the docked exit stops the
loop.  On a fuel-dead near-stationary frame inside the radius the game-over
return preempts docking. -/
theorem docking_gate (st : GameFrameState) (inp : FrameInput) (o : FrameOracles)
    (hs0 : 0 ≤ o.speed)
    (hs : o.speed ^ 2 =
      (velAfterDrag (velAfterThrust st.ship.shipConfig st.ship.velocity st.ship.currentFuel inp.keyThrust o.cosR o.sinR)).x ^ 2 +
      (velAfterDrag (velAfterThrust st.ship.shipConfig st.ship.velocity st.ship.currentFuel inp.keyThrust o.cosR o.sinR)).y ^ 2) :
    frame st inp o = FrameExit.docked (frameShip st inp o) ↔
      (¬ (fuelAfterThrust st.ship.shipConfig st.ship.currentFuel inp.keyThrust ≤ 0 ∧
          |(velAfterCap st.ship.shipConfig (velAfterDrag (velAfterThrust st.ship.shipConfig st.ship.velocity st.ship.currentFuel inp.keyThrust o.cosR o.sinR)) o.speed).x| < 1/10 ∧
          |(velAfterCap st.ship.shipConfig (velAfterDrag (velAfterThrust st.ship.shipConfig st.ship.velocity st.ship.currentFuel inp.keyThrust o.cosR o.sinR)) o.speed).y| < 1/10) ∧
        (framePhysics st inp o).position.x ^ 2 + (framePhysics st inp o).position.y ^ 2 < DOCKING_RANGE ^ 2 ∧
        (velAfterDrag (velAfterThrust st.ship.shipConfig st.ship.velocity st.ship.currentFuel inp.keyThrust o.cosR o.sinR)).x ^ 2 +
        (velAfterDrag (velAfterThrust st.ship.shipConfig st.ship.velocity st.ship.currentFuel inp.keyThrust o.cosR o.sinR)).y ^ 2 < (1/2) ^ 2) := by
  have hiff := physicsStage_gameOver_iff st.ship.shipConfig st.ship.rotation
    st.ship.currentFuel st.ship.velocity st.ship.position inp.keyLeft
    inp.keyRight inp.keyThrust o.cosR o.sinR o.speed
  have h12 : o.speed < 1/2 ↔
      (velAfterDrag (velAfterThrust st.ship.shipConfig st.ship.velocity st.ship.currentFuel inp.keyThrust o.cosR o.sinR)).x ^ 2 +
      (velAfterDrag (velAfterThrust st.ship.shipConfig st.ship.velocity st.ship.currentFuel inp.keyThrust o.cosR o.sinR)).y ^ 2 < (1/2) ^ 2 := by
    rw [← hs]
    constructor
    · intro h
      exact pow_lt_pow_left h hs0 (by norm_num)
    · intro h
      by_contra hcon
      push_neg at hcon
      have := pow_le_pow_left (by norm_num : (0:ℚ) ≤ 1/2) hcon 2
      linarith
  by_cases hgo : (framePhysics st inp o).isGameOver = true
  · simp only [frame]
    rw [if_pos hgo]
    constructor
    · intro h
      exact FrameExit.noConfusion h
    · rintro ⟨hno, -, -⟩
      exact absurd (hiff.mp hgo) hno
  · have hno : ¬ (fuelAfterThrust st.ship.shipConfig st.ship.currentFuel inp.keyThrust ≤ 0 ∧
        |(velAfterCap st.ship.shipConfig (velAfterDrag (velAfterThrust st.ship.shipConfig st.ship.velocity st.ship.currentFuel inp.keyThrust o.cosR o.sinR)) o.speed).x| < 1/10 ∧
        |(velAfterCap st.ship.shipConfig (velAfterDrag (velAfterThrust st.ship.shipConfig st.ship.velocity st.ship.currentFuel inp.keyThrust o.cosR o.sinR)) o.speed).y| < 1/10) :=
      fun hp => hgo (hiff.mpr hp)
    simp only [frame]
    rw [if_neg hgo]
    constructor
    · intro h
      split at h
      · next hcond =>
        split at h
        · next hsp => exact ⟨hno, hcond.1, h12.mp hsp⟩
        · exact FrameExit.noConfusion h
      · exact FrameExit.noConfusion h
    · rintro ⟨-, hdist, hv⟩
      have hs12 : o.speed < 1/2 := h12.mpr hv
      rw [if_pos ⟨hdist, lt_trans hs12 (by norm_num)⟩, if_pos hs12]

/-- Witness for C6: a fuelled slow drift over the station docks. -/
theorem docking_gate_witness :
    frame dockSt dockInp dockOr = FrameExit.docked (frameShip dockSt dockInp dockOr) := by
  apply (docking_gate dockSt dockInp dockOr
    (by norm_num [dockOr])
    (by norm_num [dockSt, dockInp, dockOr, velAfterDrag, velAfterThrust,
      thrustFires, INITIAL_SHIP_CONFIG])).mpr
  have hph : framePhysics dockSt dockInp dockOr =
      { rotation := 0, velocity := ⟨3/10, 0⟩, position := ⟨3/10, 0⟩
        fuel := 19999/20, isGameOver := false } := by
    norm_num [framePhysics, physicsStage, rotAfterKeys, thrustFires,
      velAfterThrust, fuelAfterThrust, velAfterDrag, velAfterCap, dockSt,
      dockInp, dockOr, INITIAL_SHIP_CONFIG]
  refine ⟨?_, ?_, ?_⟩
  · norm_num [fuelAfterThrust, thrustFires, dockSt, dockInp,
      INITIAL_SHIP_CONFIG]
  · rw [hph]
    norm_num [DOCKING_RANGE]
  · norm_num [dockSt, dockInp, dockOr, velAfterDrag, velAfterThrust,
      thrustFires, INITIAL_SHIP_CONFIG]

/-! Claim C1: fuel is not clamped at zero (corrected) but is bounded
below. -/

/-- Counterexample to C1 as stated: with 0.3 fuel units and thrust held, the
frame ends with currentFuel = -0.2 < 0 — no deduction clamps at zero. -/
theorem fuel_clamp_counterexample :
    (frame lowFuelSt lowFuelInp lowFuelOr).fuelOf = some (-1/5) ∧
    ¬ (0 : ℚ) ≤ -1/5 := by
  have hph : framePhysics lowFuelSt lowFuelInp lowFuelOr =
      { rotation := 0, velocity := ⟨10197/2000, 0⟩
        position := ⟨20010197/2000, 0⟩, fuel := -1/5, isGameOver := false } := by
    norm_num [framePhysics, physicsStage, rotAfterKeys, thrustFires,
      velAfterThrust, fuelAfterThrust, velAfterDrag, velAfterCap, lowFuelSt,
      lowFuelInp, lowFuelOr, INITIAL_SHIP_CONFIG, decide_eq_false_iff_not]
    rw [abs_of_pos (show (0:ℚ) < 10197/2000 by norm_num)]
    norm_num
  have hcomb : (frameCombat lowFuelSt lowFuelInp lowFuelOr).fuel =
      (framePhysics lowFuelSt lowFuelInp lowFuelOr).fuel := by
    unfold frameCombat
    rw [combatStep_idle _ _ _ (by norm_num [frameCombatEnv, lowFuelInp])]
    rfl
  have hframe : frame lowFuelSt lowFuelInp lowFuelOr =
      FrameExit.next (frameNext lowFuelSt lowFuelInp lowFuelOr) := by
    simp only [frame]
    rw [hph]
    norm_num [DOCKING_RANGE]
  refine ⟨?_, by norm_num⟩
  rw [hframe]
  show some (frameNext lowFuelSt lowFuelInp lowFuelOr).ship.currentFuel = some (-1/5)
  have : (frameNext lowFuelSt lowFuelInp lowFuelOr).ship.currentFuel =
      (frameCombat lowFuelSt lowFuelInp lowFuelOr).fuel := rfl
  rw [this, hcomb, hph]

/-- Claim C1 (amended): currentFuel is not clamped at zero and can end a
frame negative, but every deduction fires only from a strictly positive
level, so it always stays strictly above
-max(thrustConsumptionRate, fuelConsumptionRate) for nonnegative rates. -/
theorem fuel_floor (st : GameFrameState) (inp : FrameInput) (o : FrameOracles)
    (hT : 0 ≤ st.ship.shipConfig.thrustConsumptionRate)
    (hI : 0 ≤ st.ship.shipConfig.fuelConsumptionRate)
    (hB : -(max st.ship.shipConfig.thrustConsumptionRate st.ship.shipConfig.fuelConsumptionRate) < st.ship.currentFuel) :
    ∀ f, (frame st inp o).fuelOf = some f →
      -(max st.ship.shipConfig.thrustConsumptionRate st.ship.shipConfig.fuelConsumptionRate) < f := by
  intro f hf
  have h1 : -(max st.ship.shipConfig.thrustConsumptionRate st.ship.shipConfig.fuelConsumptionRate) <
      (framePhysics st inp o).fuel :=
    physicsStage_fuel_lb st.ship.shipConfig st.ship.rotation st.ship.currentFuel
      st.ship.velocity st.ship.position inp.keyLeft inp.keyRight inp.keyThrust
      o.cosR o.sinR o.speed hT hI hB
  have h2 : -(max st.ship.shipConfig.thrustConsumptionRate st.ship.shipConfig.fuelConsumptionRate) <
      (frameCombat st inp o).fuel :=
    combatStep_fuel_lb (frameCombatEnv st inp o) (frameAlienStep st inp o).1
      st.asteroids _ (le_max_left _ _) hT h1
  have hship : (frameShip st inp o).currentFuel = (frameCombat st inp o).fuel := rfl
  simp only [frame] at hf
  split at hf
  · simp [FrameExit.fuelOf] at hf
  · split at hf
    · split at hf
      · simp only [FrameExit.fuelOf, Option.some.injEq] at hf
        rw [← hf, hship]
        exact h2
      · simp only [FrameExit.fuelOf, Option.some.injEq] at hf
        rw [← hf]
        exact h2
    · simp only [FrameExit.fuelOf, Option.some.injEq] at hf
      rw [← hf]
      exact h2

/-- Witness for the amended C1 at the docking frame: the end-of-frame fuel
19999/20 sits above the -1/2 floor. -/
theorem fuel_floor_witness :
    -(max (1/2 : ℚ) (1/20)) < 19999/20 ∧
    (frame dockSt dockInp dockOr).fuelOf = some (19999/20) := by
  have hph : framePhysics dockSt dockInp dockOr =
      { rotation := 0, velocity := ⟨3/10, 0⟩, position := ⟨3/10, 0⟩
        fuel := 19999/20, isGameOver := false } := by
    norm_num [framePhysics, physicsStage, rotAfterKeys, thrustFires,
      velAfterThrust, fuelAfterThrust, velAfterDrag, velAfterCap, dockSt,
      dockInp, dockOr, INITIAL_SHIP_CONFIG]
  have hcomb : (frameCombat dockSt dockInp dockOr).fuel =
      (framePhysics dockSt dockInp dockOr).fuel := by
    unfold frameCombat
    rw [combatStep_idle _ _ _ (by norm_num [frameCombatEnv, dockInp])]
    rfl
  have hframe : frame dockSt dockInp dockOr =
      FrameExit.docked (frameShip dockSt dockInp dockOr) := by
    simp only [frame]
    rw [hph]
    norm_num [DOCKING_RANGE, dockOr]
  have hfo : (frame dockSt dockInp dockOr).fuelOf = some (19999/20) := by
    rw [hframe]
    show some (frameShip dockSt dockInp dockOr).currentFuel = some (19999/20)
    have : (frameShip dockSt dockInp dockOr).currentFuel =
        (frameCombat dockSt dockInp dockOr).fuel := rfl
    rw [this, hcomb, hph]
  have hmain := fuel_floor dockSt dockInp dockOr
    (by norm_num [dockSt, INITIAL_SHIP_CONFIG])
    (by norm_num [dockSt, INITIAL_SHIP_CONFIG])
    (by norm_num [dockSt, INITIAL_SHIP_CONFIG])
    (19999/20) hfo
  exact ⟨by simpa [dockSt, INITIAL_SHIP_CONFIG] using hmain, hfo⟩

end SpaceMining
